import Mathlib

/-!
Verification of the adaptive-resolution MUF grid sampling core of the
`bh-network` repository (`src/solar/mask_utils.py`, `src/solar/build_muf_grid.py`,
`src/solar/generate_land_mask.py`).

The Python code is shallowly embedded over exact rationals (`ℚ`): the ideal
arithmetic reading of the source's float computations.  `round(x, 6)` is
modelled as round-half-to-even at six decimal places (Python's rounding mode),
fallible code returns `Option`/`Except`, and the per-latitude dictionary of
longitude sets built by `build_coordinate_map` is modelled as a list of
(lat, lon) pairs deduplicated at the final sorting step (the Python
`defaultdict(set)` keyed by the rounded latitude is exactly the fibration of
that point set over its first component).
-/

namespace BHN

/-- Python's banker's rounding of a rational to the nearest integer
(round half to even), as used by `round(x, n)`. -/
def pyRoundInt (q : ℚ) : ℤ :=
  let f : ℤ := ⌊q⌋
  let r : ℚ := q - f
  if r < 1/2 then f
  else if 1/2 < r then f + 1
  else if f % 2 = 0 then f else f + 1

/-- `round(x, 6)` from `mask_utils._inclusive_range` (line 47): round to six
decimal places. -/
def round6 (q : ℚ) : ℚ := (pyRoundInt (q * 1000000) : ℚ) / 1000000

/-- The tolerance `epsilon = 1e-9` of `mask_utils._inclusive_range` (line 45). -/
def eps : ℚ := 1 / 1000000000

/-- Number of iterations of the `_inclusive_range` loop started at `current`
(for a positive step): the loop advances by `step` while
`current <= stop + epsilon`. -/
def rangeLen (stop step current : ℚ) : ℕ :=
  if current ≤ stop + eps then (⌊(stop + eps - current) / step⌋ + 1).toNat else 0

/-- The loop of `mask_utils._inclusive_range` (lines 44-48): starting from
`current`, yield `round(current, 6)` and advance by `step` while
`current <= stop + epsilon`.  Structural recursion on a fuel argument (the
caller passes `rangeLen`, the exact number of iterations the Python `while`
loop performs) keeps the definition kernel-computable. -/
def inclusiveRangeAux (stop step : ℚ) : ℕ → ℚ → List ℚ
  | 0, _ => []
  | Nat.succ n, current =>
    if current ≤ stop + eps then
      round6 current :: inclusiveRangeAux stop step n (current + step)
    else []

/-- `mask_utils._inclusive_range` (lines 41-48).  The Python generator raises
`ValueError` on a non-positive step; modelled as `none`. -/
def inclusive_range (start stop step : ℚ) : Option (List ℚ) :=
  if 0 < step then
    some (inclusiveRangeAux stop step (rangeLen stop step start) start)
  else none

theorem rangeLen_pos (stop step current : ℚ) (hstep : 0 < step)
    (h : current ≤ stop + eps) : 0 < rangeLen stop step current := by
  have hx : (0 : ℚ) ≤ (stop + eps - current) / step :=
    div_nonneg (by linarith) hstep.le
  have hfx : (0 : ℤ) ≤ ⌊(stop + eps - current) / step⌋ := Int.floor_nonneg.mpr hx
  simp only [rangeLen, if_pos h]
  omega

theorem rangeLen_succ (stop step current : ℚ) (hstep : 0 < step)
    (h : current ≤ stop + eps) :
    rangeLen stop step current = rangeLen stop step (current + step) + 1 := by
  have hx : (0 : ℚ) ≤ (stop + eps - current) / step :=
    div_nonneg (by linarith) hstep.le
  have hfx : (0 : ℤ) ≤ ⌊(stop + eps - current) / step⌋ := Int.floor_nonneg.mpr hx
  have harg : (stop + eps - (current + step)) / step
      = (stop + eps - current) / step - 1 := by
    field_simp
    ring
  have hfl : ⌊(stop + eps - (current + step)) / step⌋
      = ⌊(stop + eps - current) / step⌋ - 1 := by
    rw [harg]
    exact_mod_cast Int.floor_sub_int ((stop + eps - current) / step) 1
  by_cases h2 : current + step ≤ stop + eps
  · simp only [rangeLen, if_pos h, if_pos h2, hfl]
    omega
  · have hlt : stop + eps - current < step := by
      by_contra hc
      exact h2 (by linarith)
    have hflt : (stop + eps - current) / step < 1 :=
      (div_lt_one hstep).mpr hlt
    have hzero : ⌊(stop + eps - current) / step⌋ = 0 :=
      Int.floor_eq_zero_iff.mpr ⟨hx, hflt⟩
    simp only [rangeLen, if_pos h, if_neg h2, hzero]
    omega

theorem inclusiveRangeAux_eq_map (stop step : ℚ) (hstep : 0 < step) :
    ∀ (n : ℕ) (current : ℚ), rangeLen stop step current = n →
      inclusiveRangeAux stop step n current
        = (List.range n).map (fun k : ℕ => round6 (current + (k : ℚ) * step)) := by
  intro n
  induction n with
  | zero =>
    intro current _
    rfl
  | succ n ih =>
    intro current hn
    have h : current ≤ stop + eps := by
      by_contra hcon
      simp only [rangeLen, if_neg hcon] at hn
      omega
    have hlen : rangeLen stop step (current + step) = n := by
      have := rangeLen_succ stop step current hstep h
      omega
    rw [inclusiveRangeAux, if_pos h, ih (current + step) hlen,
      List.range_succ_eq_map]
    simp only [List.map_cons, List.map_map, Nat.cast_zero, zero_mul, add_zero]
    refine congrArg₂ _ rfl (List.map_congr_left fun k _ => ?_)
    refine congrArg round6 ?_
    push_cast
    ring

theorem inclusive_range_eq (start stop step : ℚ) (hstep : 0 < step) :
    inclusive_range start stop step
      = some ((List.range (rangeLen stop step start)).map
          (fun k : ℕ => round6 (start + (k : ℚ) * step))) := by
  rw [inclusive_range, if_pos hstep,
    inclusiveRangeAux_eq_map stop step hstep _ start rfl]

theorem inclusive_range_none (start stop step : ℚ) (hstep : ¬ 0 < step) :
    inclusive_range start stop step = none := by
  rw [inclusive_range, if_neg hstep]

/-- Membership of the `k`-th grid value in the generated range. -/
theorem round6_mem_inclusive_range (start stop step : ℚ) (hstep : 0 < step)
    (k : ℕ) (hk : start + k * step ≤ stop + eps) (l : List ℚ)
    (hl : inclusive_range start stop step = some l) :
    round6 (start + k * step) ∈ l := by
  rw [inclusive_range_eq start stop step hstep] at hl
  obtain rfl := Option.some.inj hl
  have hx : (k : ℚ) ≤ (stop + eps - start) / step := by
    rw [le_div_iff₀ hstep]
    linarith
  have hfl : (k : ℤ) ≤ ⌊(stop + eps - start) / step⌋ :=
    Int.le_floor.mpr (by exact_mod_cast hx)
  have hse : start ≤ stop + eps := by
    have hk0 : (0 : ℚ) ≤ (k : ℚ) * step :=
      mul_nonneg (by positivity) hstep.le
    linarith
  have hklt : k < rangeLen stop step start := by
    simp only [rangeLen, if_pos hse]
    omega
  exact List.mem_map_of_mem (fun j : ℕ => round6 (start + (j : ℚ) * step))
    (List.mem_range.mpr hklt)

/-- `mask_utils.MaskRegion` (lines 18-25). -/
structure MaskRegion where
  name : String
  lat_min : ℚ
  lat_max : ℚ
  lon_min : ℚ
  lon_max : ℚ
  step : ℚ
  deriving DecidableEq, Repr

/-- `mask_utils.MaskConfig` (lines 28-31). -/
structure MaskConfig where
  default_step : ℚ
  regions : List MaskRegion
  deriving DecidableEq, Repr

/-- JSON-shaped data, as produced by Python's `json.load`/`json.loads`. -/
inductive Json where
  | null : Json
  | bool (b : Bool) : Json
  | num (q : ℚ) : Json
  | str (s : String) : Json
  | arr (xs : List Json) : Json
  | obj (fields : List (String × Json)) : Json

/-- Dictionary lookup `data[key]` / `data.get(key)` on a JSON value.  On a
non-dict the Python subscript raises `TypeError`; modelled as `none` (in
`load_mask` both the `KeyError` and the `TypeError` flow into the same
`ValueError` handler). -/
def jGet (j : Json) (key : String) : Option Json :=
  match j with
  | Json.obj fields => fields.lookup key
  | _ => none

/-- Python `float(x)` on a JSON value.  Numbers convert to themselves and
booleans to 0/1; `None`, lists and dicts raise `TypeError` (modelled as
`none`).  Numeric strings, which CPython would also accept, are not modelled:
no claim exercises them. -/
def pyFloat (j : Json) : Option ℚ :=
  match j with
  | Json.num q => some q
  | Json.bool b => some (cond b 1 0)
  | _ => none

/-- Python `str(x)` on a JSON value (total: `str` never fails). -/
def pyStr (j : Json) : String :=
  match j with
  | Json.str s => s
  | Json.num q => toString q
  | Json.bool b => cond b "True" "False"
  | Json.null => "None"
  | Json.arr _ => "<list>"
  | Json.obj _ => "<dict>"

/-- One iteration of the region loop of `mask_utils.load_mask` (lines 60-72):
build a `MaskRegion` from one entry, `none` when a field is missing or
non-numeric (Python `KeyError`/`TypeError`/`ValueError`). -/
def parseRegion (entry : Json) : Option MaskRegion := do
  let nm ← jGet entry "name"
  let latMin ← (jGet entry "lat_min").bind pyFloat
  let latMax ← (jGet entry "lat_max").bind pyFloat
  let lonMin ← (jGet entry "lon_min").bind pyFloat
  let lonMax ← (jGet entry "lon_max").bind pyFloat
  let st ← (jGet entry "step").bind pyFloat
  pure ⟨pyStr nm, latMin, latMax, lonMin, lonMax, st⟩

/-- The indexed region loop of `mask_utils.load_mask` (lines 59-72). -/
def parseRegions (i : ℕ) : List Json → Except String (List MaskRegion)
  | [] => Except.ok []
  | entry :: rest =>
    match parseRegion entry with
    | none => Except.error ("Invalid region at index " ++ toString i)
    | some r => (parseRegions (i + 1) rest).map (fun rs => r :: rs)

/-- `mask_utils.load_mask` (lines 51-73), applied to the decoded JSON value
(file IO and JSON decoding are outside the model).  Note that the function
validates presence and numeric-ness of the fields only: it never checks the
sign of `default_step` or of a region `step`. -/
def load_mask (data : Json) : Except String MaskConfig :=
  match (jGet data "default_step").bind pyFloat with
  | none => Except.error "Mask file must define numeric default_step"
  | some ds =>
    match jGet data "regions" with
    | none => (parseRegions 0 []).map (fun rs => ⟨ds, rs⟩)
    | some (Json.arr xs) => (parseRegions 0 xs).map (fun rs => ⟨ds, rs⟩)
    | some _ => Except.error "regions is not a list"

/-- The containment test `region.lat_min <= lat <= region.lat_max and
region.lon_min <= lon <= region.lon_max` shared by `apply_mask_step`
(lines 83-86) and `regions_for_point` (lines 96-98). -/
def regionContains (r : MaskRegion) (lat lon : ℚ) : Bool :=
  decide (r.lat_min ≤ lat ∧ lat ≤ r.lat_max ∧ r.lon_min ≤ lon ∧ lon ≤ r.lon_max)

/-- `mask_utils.apply_mask_step` (lines 76-88). -/
def apply_mask_step (mask : Option MaskConfig) (lat lon fallback_step : ℚ) : ℚ :=
  match mask with
  | none => fallback_step
  | some m =>
    m.regions.foldl
      (fun step r => if regionContains r lat lon then min step r.step else step)
      m.default_step

/-- `mask_utils.regions_for_point` (lines 91-101): the loop appends the name of
every region containing the point, in order, which is the filtered name list. -/
def regions_for_point (mask : Option MaskConfig) (lat lon : ℚ) : List String :=
  match mask with
  | none => []
  | some m => (m.regions.filter (fun r => regionContains r lat lon)).map
      (fun r => r.name)

/-- The nested loop body of `add_cells` in `mask_utils.build_coordinate_map`
(lines 129-132): all (lat, lon) pairs with `lat` from the latitude range and
`lon` from the longitude range. -/
def gridPoints (lats lons : List ℚ) : List (ℚ × ℚ) :=
  lats.flatMap (fun la => lons.map (fun lo => (la, lo)))

theorem mem_gridPoints (lats lons : List ℚ) (p : ℚ × ℚ) :
    p ∈ gridPoints lats lons ↔ p.1 ∈ lats ∧ p.2 ∈ lons := by
  cases p with
  | mk a b =>
    simp only [gridPoints, List.mem_flatMap, List.mem_map, Prod.mk.injEq]
    constructor
    · rintro ⟨x, hx, y, hy, h1, h2⟩
      subst h1
      subst h2
      exact ⟨hx, hy⟩
    · rintro ⟨ha, hb⟩
      exact ⟨a, ha, b, hb, rfl, rfl⟩

/-- `add_cells` in `mask_utils.build_coordinate_map` (lines 116-132): clip the
region rectangle to the bounding box, return nothing on an empty intersection,
otherwise contribute the rectangle's own inclusive grid.  The multiset of
contributed points is returned as a list; the Python mutation of the
`defaultdict` of sets is recovered by deduplicating in `toSortedMap`.  A
non-positive step raises (`none`) only when the guard is passed, as in the
source. -/
def addCells (lat_min lat_max lon_min lon_max : ℚ)
    (rLatMin rLatMax rLonMin rLonMax step : ℚ) : Option (List (ℚ × ℚ)) :=
  let latStart := max lat_min rLatMin
  let latStop := min lat_max rLatMax
  let lonStart := max lon_min rLonMin
  let lonStop := min lon_max rLonMax
  if latStart > latStop ∨ lonStart > lonStop then some []
  else do
    let lats ← inclusive_range latStart latStop step
    let lons ← inclusive_range lonStart lonStop step
    some (gridPoints lats lons)

/-- The accumulation phase of `mask_utils.build_coordinate_map` (lines
114-141): the base sweep over the whole bounding box at the base step (the
mask's `default_step` when a mask is supplied, lines 134-137), then one
`add_cells` per mask region, all collected into one point list. -/
def collectPoints (lat_min lat_max lon_min lon_max fallback_step : ℚ)
    (mask : Option MaskConfig) : Option (List (ℚ × ℚ)) := do
  let baseStep := match mask with
    | some m => m.default_step
    | none => fallback_step
  let base ← addCells lat_min lat_max lon_min lon_max
    lat_min lat_max lon_min lon_max baseStep
  match mask with
  | none => some base
  | some m =>
    m.regions.foldlM
      (fun acc r => do
        let s ← addCells lat_min lat_max lon_min lon_max
          r.lat_min r.lat_max r.lon_min r.lon_max r.step
        some (acc ++ s))
      base

/-- The final phase of `mask_utils.build_coordinate_map` (lines 143-146):
sort each latitude's set of longitudes, then sort by latitude.  The Python
`defaultdict(set)` keyed by latitude is the fibration of the collected point
set over its first component; set-ness is deduplication. -/
def toSortedMap (pts : List (ℚ × ℚ)) : List (ℚ × List ℚ) :=
  (List.insertionSort (· ≤ ·) (pts.map Prod.fst).dedup).map
    (fun la =>
      (la, List.insertionSort (· ≤ ·)
        ((pts.filter (fun p => p.1 = la)).map Prod.snd).dedup))

/-- `mask_utils.build_coordinate_map` (lines 104-146), as the sorted
association list latitude → sorted longitudes. -/
def build_coordinate_map (lat_min lat_max lon_min lon_max fallback_step : ℚ)
    (mask : Option MaskConfig) : Option (List (ℚ × List ℚ)) :=
  (collectPoints lat_min lat_max lon_min lon_max fallback_step mask).map
    toSortedMap

/-- The timestamp fields passed to the driver
(`build_muf_grid.timestamp_fields_from_dt`, lines 145-152). -/
structure TsFields where
  year : ℤ
  month : ℕ
  day : ℕ
  decimal_hours : ℚ
  deriving DecidableEq

/-- Result of one subprocess invocation (`subprocess.run`, lines 172-179):
exit code and captured standard output / standard error. -/
structure ProcResult where
  returncode : ℤ
  stdout : String
  stderr : String
  deriving DecidableEq

/-- The two `RuntimeError`s raised by `build_muf_grid.run_driver` (lines
180-189), as structured values carrying exactly the data interpolated into the
Python messages: the offending coordinate, the exit code and the stripped
diagnostic output, respectively the parse-failure detail and the raw output. -/
inductive ComputeError where
  | driverFailed (lat lon : ℚ) (code : ℤ) (stderr : String) : ComputeError
  | parseFailed (lat lon : ℚ) (detail : String) (stdout : String) : ComputeError
  deriving DecidableEq

/-- `build_muf_grid.run_driver` (lines 155-189), parameterized over the
external process (`exec`, the `subprocess.run` call on the driver executable
with the given timestamp fields and coordinate) and over `json.loads`
(`parse`).  String serialization of the command-line arguments is outside the
model; the subprocess is abstracted as a function of the data passed. -/
def run_driver (exec : TsFields → ℚ → ℚ → ProcResult)
    (parse : String → Except String Json) (tf : TsFields) (lat lon : ℚ) :
    Except ComputeError Json :=
  let result := exec tf lat lon
  if result.returncode ≠ 0 then
    Except.error (ComputeError.driverFailed lat lon result.returncode
      result.stderr)
  else
    match parse result.stdout with
    | Except.ok payload => Except.ok payload
    | Except.error detail =>
      Except.error (ComputeError.parseFailed lat lon detail result.stdout)

/-- One output tile of `build_muf_grid._compute_row` (lines 274-284): the
rounded coordinate and the three extracted MUF values (`None` when the key is
absent, JSON `null` or any other value when present). -/
structure Tile where
  lat : ℚ
  lon : ℚ
  nvis : Option Json
  regional : Option Json
  dx : Option Json

/-- `payload.get(key, {})` on a JSON dict (with default `{}`), as used in
`_compute_row` (lines 273, 279-281).  A non-dict payload would raise
`AttributeError` in Python; that crash is outside the model (no claim
exercises it). -/
def jGetD (j : Json) (key : String) : Json :=
  (jGet j key).getD (Json.obj [])

/-- The tile construction of `build_muf_grid._compute_row` (lines 273-284). -/
def mkTile (lat lon : ℚ) (payload : Json) : Tile :=
  let muf := jGetD payload "muf"
  { lat := round6 lat
    lon := round6 lon
    nvis := jGet (jGetD muf "nvis") "muf_mhz"
    regional := jGet (jGetD muf "regional") "muf_mhz"
    dx := jGet (jGetD muf "dx_secant") "muf_mhz" }

/-- `build_muf_grid._compute_row` (lines 261-285), parameterized over the
per-point compute call (`run_driver` partially applied): iterate the row's
longitudes in order, propagating the first failure. -/
def compute_row (point : ℚ → ℚ → Except ComputeError Json) (lat : ℚ)
    (lon_values : List ℚ) : Except ComputeError (List Tile) :=
  lon_values.foldlM
    (fun row lon => do
      let payload ← point lat lon
      pure (row ++ [mkTile lat lon payload]))
    []

/-- The `workers == 1` branch of `build_muf_grid.build_tiles` (lines 205-222):
process the latitude rows sequentially in order, extending the tile list. -/
def serialTiles (point : ℚ → ℚ → Except ComputeError Json)
    (lat_to_lons : List (ℚ × List ℚ)) : Except ComputeError (List Tile) :=
  lat_to_lons.foldlM
    (fun tiles row => do
      let rowTiles ← compute_row point row.1 row.2
      pure (tiles ++ rowTiles))
    []

/-- The worker-pool branch of `build_muf_grid.build_tiles` (lines 224-243):
`pool.map` computes one row per task, and the `zip` collection loop extends
the tile list in the submission (latitude) order, so the first failing row in
that order aborts the collection. -/
def parallelTiles (point : ℚ → ℚ → Except ComputeError Json)
    (lat_to_lons : List (ℚ × List ℚ)) : Except ComputeError (List Tile) :=
  (lat_to_lons.map (fun row => compute_row point row.1 row.2)).foldlM
    (fun tiles rowResult => do
      let rowTiles ← rowResult
      pure (tiles ++ rowTiles))
    []

/-- Outcome of creating the `ProcessPoolExecutor` (line 226): success, or the
`PermissionError` an execution environment that denies process spawning
raises.  Other exceptions would propagate out of `build_tiles` and are not
modelled. -/
inductive PoolSpawn where
  | ok : PoolSpawn
  | permissionDenied : PoolSpawn
  deriving DecidableEq

/-- `build_muf_grid.build_tiles` (lines 192-258): one worker means the serial
loop; otherwise a pool is created, and on a `PermissionError` the function
returns `build_tiles(..., workers=1)` (lines 244-257), which is exactly the
serial loop (the tiles accumulated before the exception are discarded). -/
def build_tiles (point : ℚ → ℚ → Except ComputeError Json)
    (lat_to_lons : List (ℚ × List ℚ)) (workers : ℕ) (spawn : PoolSpawn) :
    Except ComputeError (List Tile) :=
  if workers = 1 then serialTiles point lat_to_lons
  else
    match spawn with
    | PoolSpawn.ok => parallelTiles point lat_to_lons
    | PoolSpawn.permissionDenied => serialTiles point lat_to_lons

/-- `generate_land_mask.Ring` (lines 27-30): a closed point ring with its
hole flag. -/
structure Ring where
  points : List (ℚ × ℚ)
  is_hole : Bool

/-- `generate_land_mask.ShapeInfo` (lines 33-36): bounding box
`(minx, miny, maxx, maxy)` and rings. -/
structure ShapeInfo where
  bbox : ℚ × ℚ × ℚ × ℚ
  rings : List Ring

/-- `generate_land_mask.polygon_area` (lines 116-122): the shoelace sum over
consecutive point pairs, halved. -/
def polygon_area (points : List (ℚ × ℚ)) : ℚ :=
  ((points.zip points.tail).foldl
    (fun area pq => area + (pq.1.1 * pq.2.2 - pq.2.1 * pq.1.2)) 0) / 2

/-- The hole-classification of `generate_land_mask.load_shapes` (lines
109-111): a ring with positive shoelace area is a hole (Natural Earth outer
rings are clockwise, area < 0). -/
def mkRing (points : List (ℚ × ℚ)) : Ring :=
  { points := points, is_hole := decide (polygon_area points > 0) }

/-- One iteration of the edge loop of `generate_land_mask.point_in_ring`
(lines 143-150): `pcur` is `ring[i]`, `pprev` is `ring[j]`.  The Python
`(yj - yi) or 1e-12` guards division by an exactly-zero denominator. -/
def edgeTest (lon lat : ℚ) (pcur pprev : ℚ × ℚ) (inside : Bool) : Bool :=
  let xi := pcur.1
  let yi := pcur.2
  let xj := pprev.1
  let yj := pprev.2
  let d := yj - yi
  let denom := if d = 0 then (1 : ℚ) / 1000000000000 else d
  let intersects :=
    (decide (yi > lat) != decide (yj > lat))
      && decide (lon < (xj - xi) * (lat - yi) / denom + xi)
  if intersects then !inside else inside

/-- `generate_land_mask.point_in_ring` (lines 139-151): ray casting; `j`
starts at the last index and trails `i` by one thereafter. -/
def point_in_ring (lon lat : ℚ) (ring : List (ℚ × ℚ)) : Bool :=
  (List.range ring.length).foldl
    (fun inside i =>
      edgeTest lon lat (ring.getD i (0, 0))
        (ring.getD (if i = 0 then ring.length - 1 else i - 1) (0, 0)) inside)
    false

/-- `generate_land_mask.point_in_shape` (lines 125-136): bounding-box
rejection, then per-ring ray casting where containment in a hole ring resets
the accumulated inside state and containment in a solid ring sets it. -/
def point_in_shape (lon lat : ℚ) (shape : ShapeInfo) : Bool :=
  match shape.bbox with
  | (minx, miny, maxx, maxy) =>
    if lon < minx ∨ lon > maxx ∨ lat < miny ∨ lat > maxy then false
    else
      shape.rings.foldl
        (fun inside r =>
          if point_in_ring lon lat r.points then
            (if r.is_hole then false else true)
          else inside)
        false

/-- The Python format `f"{n:+03d}"` / `f"{n:+04d}"`: always-signed,
zero-padded to the given total width. -/
def fmtSigned (width : ℕ) (n : ℤ) : String :=
  let digits := toString n.natAbs
  let sign := if n < 0 then "-" else "+"
  sign ++ String.mk (List.replicate (width - 1 - digits.length) '0') ++ digits

/-- The region record emitted by `generate_land_mask.build_mask` for one land
cell (lines 183-192): a degenerate rectangle at the cell's whole-degree
southwest corner. -/
def landCellRegion (land_step : ℚ) (cell : ℤ × ℤ) : MaskRegion :=
  { name := "land_cell_" ++ fmtSigned 3 cell.1 ++ "_" ++ fmtSigned 4 cell.2
    lat_min := (cell.1 : ℚ)
    lat_max := (cell.1 : ℚ)
    lon_min := (cell.2 : ℚ)
    lon_max := (cell.2 : ℚ)
    step := land_step }

/-- The `(lat_min, lon_min)` sort key of `generate_land_mask.build_mask`
(line 193). -/
def regionKeyLE (r s : MaskRegion) : Bool :=
  decide (r.lat_min < s.lat_min ∨ (r.lat_min = s.lat_min ∧ r.lon_min ≤ s.lon_min))

/-- `generate_land_mask.build_mask` (lines 176-194): one region per land
cell, sorted by `(lat_min, lon_min)` (Python's stable `list.sort`, modelled
by the stable insertion sort).  The returned dict is `MaskConfig`-shaped. -/
def build_mask (land_cells : List (ℤ × ℤ)) (default_step land_step : ℚ) :
    MaskConfig :=
  { default_step := default_step
    regions := List.insertionSort (fun r s => regionKeyLE r s)
      (land_cells.map (landCellRegion land_step)) }

/-- The inclusive product grid in the spec's words (§8, first bullet; §4.2):
"the set of whole steps from lat_min to lat_max and lon_min to lon_max
inclusive", at one step, as a sorted latitude → sorted longitudes map.  This
definition follows the specification text and is compared against
`build_coordinate_map`. -/
def specInclusiveGrid (lat_min lat_max lon_min lon_max step : ℚ) :
    List (ℚ × List ℚ) :=
  let lats := ((inclusive_range lat_min lat_max step).getD []).dedup
  let lons := ((inclusive_range lon_min lon_max step).getD []).dedup
  (List.insertionSort (· ≤ ·) lats).map
    (fun la => (la, List.insertionSort (· ≤ ·) lons))

theorem sorted_lt_insertionSort (l : List ℚ) (h : l.Nodup) :
    List.Sorted (· < ·) (List.insertionSort (· ≤ ·) l) :=
  (List.sorted_insertionSort _ l).lt_of_le
    ((List.perm_insertionSort _ l).nodup_iff.mpr h)

theorem toSortedMap_map_fst (pts : List (ℚ × ℚ)) :
    (toSortedMap pts).map Prod.fst
      = List.insertionSort (· ≤ ·) (pts.map Prod.fst).dedup := by
  simp only [toSortedMap, List.map_map]
  exact (List.map_congr_left fun a _ => rfl).trans (List.map_id _)

/-- Two duplicate-free lists with the same members sort to the same list. -/
theorem insertionSort_eq_of_mem_iff (l₁ l₂ : List ℚ) (h₁ : l₁.Nodup)
    (h₂ : l₂.Nodup) (hmem : ∀ a, a ∈ l₁ ↔ a ∈ l₂) :
    List.insertionSort (· ≤ ·) l₁ = List.insertionSort (· ≤ ·) l₂ := by
  refine List.eq_of_perm_of_sorted ?_ (List.sorted_insertionSort _ l₁)
    (List.sorted_insertionSort _ l₂)
  exact (List.perm_insertionSort _ l₁).trans
    (((List.perm_ext_iff_of_nodup h₁ h₂).mpr hmem).trans
      (List.perm_insertionSort _ l₂).symm)

theorem toSortedMap_gridPoints (lats lons : List ℚ) (hne : lons ≠ []) :
    toSortedMap (gridPoints lats lons)
      = (List.insertionSort (· ≤ ·) lats.dedup).map
          (fun la => (la, List.insertionSort (· ≤ ·) lons.dedup)) := by
  obtain ⟨lo0, hlo0⟩ := List.exists_mem_of_ne_nil lons hne
  have hfst : ∀ a : ℚ, a ∈ ((gridPoints lats lons).map Prod.fst).dedup
      ↔ a ∈ lats.dedup := by
    intro a
    simp only [List.mem_dedup, List.mem_map]
    constructor
    · rintro ⟨p, hp, rfl⟩
      exact ((mem_gridPoints lats lons p).mp hp).1
    · intro ha
      exact ⟨(a, lo0), (mem_gridPoints lats lons (a, lo0)).mpr ⟨ha, hlo0⟩, rfl⟩
  rw [toSortedMap,
    insertionSort_eq_of_mem_iff _ _ (List.nodup_dedup _) (List.nodup_dedup _)
      hfst]
  refine List.map_congr_left fun la hla => ?_
  have hlamem : la ∈ lats := by
    have := ((List.perm_insertionSort _ lats.dedup).mem_iff).mp hla
    exact List.mem_dedup.mp this
  refine congrArg _ ?_
  refine insertionSort_eq_of_mem_iff _ _ (List.nodup_dedup _)
    (List.nodup_dedup _) fun b => ?_
  simp only [List.mem_dedup, List.mem_map, List.mem_filter, decide_eq_true_eq]
  constructor
  · rintro ⟨p, ⟨hp, hp1⟩, rfl⟩
    exact ((mem_gridPoints lats lons p).mp hp).2
  · intro hb
    exact ⟨(la, b), ⟨(mem_gridPoints lats lons (la, b)).mpr ⟨hlamem, hb⟩, rfl⟩,
      rfl⟩

/-- Shared base-grid characterization: with no mask, `build_coordinate_map`
over a nonempty bounding box with a positive step is the inclusive product
grid at the fallback step. -/
theorem build_none_eq_grid (lat_min lat_max lon_min lon_max fb : ℚ)
    (h1 : lat_min ≤ lat_max) (h2 : lon_min ≤ lon_max) (hs : 0 < fb) :
    build_coordinate_map lat_min lat_max lon_min lon_max fb none
      = some (specInclusiveGrid lat_min lat_max lon_min lon_max fb) := by
  have hguard : ¬ (lat_min > lat_max ∨ lon_min > lon_max) := by
    simp only [not_or, not_lt]
    exact ⟨h1, h2⟩
  have hlats := inclusive_range_eq lat_min lat_max fb hs
  have hlons := inclusive_range_eq lon_min lon_max fb hs
  have hlonne : ((List.range (rangeLen lon_max fb lon_min)).map
      (fun k : ℕ => round6 (lon_min + (k : ℚ) * fb))) ≠ [] := by
    have := rangeLen_pos lon_max fb lon_min hs
      (by unfold eps; linarith)
    intro hcon
    have := congrArg List.length hcon
    simp at this
    omega
  rw [build_coordinate_map, collectPoints]
  simp only [addCells, max_self, min_self, if_neg hguard, hlats, hlons,
    Option.bind_eq_bind, Option.some_bind, Option.map_some']
  simp only [specInclusiveGrid, hlats, hlons, Option.getD_some]
  rw [toSortedMap_gridPoints _ _ hlonne]

/-- Shared lemma: with a mask whose region list is empty, the base step is the
mask's `default_step` and the region loop contributes nothing, so the result
is the inclusive product grid at the default step. -/
theorem build_empty_mask_eq_grid (lat_min lat_max lon_min lon_max fb d : ℚ)
    (h1 : lat_min ≤ lat_max) (h2 : lon_min ≤ lon_max) (hd : 0 < d) :
    build_coordinate_map lat_min lat_max lon_min lon_max fb
        (some { default_step := d, regions := [] })
      = some (specInclusiveGrid lat_min lat_max lon_min lon_max d) := by
  have hguard : ¬ (lat_min > lat_max ∨ lon_min > lon_max) := by
    simp only [not_or, not_lt]
    exact ⟨h1, h2⟩
  have hlats := inclusive_range_eq lat_min lat_max d hd
  have hlons := inclusive_range_eq lon_min lon_max d hd
  have hlonne : ((List.range (rangeLen lon_max d lon_min)).map
      (fun k : ℕ => round6 (lon_min + (k : ℚ) * d))) ≠ [] := by
    have := rangeLen_pos lon_max d lon_min hd
      (by unfold eps; linarith)
    intro hcon
    have := congrArg List.length hcon
    simp at this
    omega
  rw [build_coordinate_map, collectPoints]
  simp only [addCells, max_self, min_self, if_neg hguard, hlats, hlons,
    Option.bind_eq_bind, Option.some_bind, List.foldlM, Option.pure_def,
    Option.map_some']
  simp only [specInclusiveGrid, hlats, hlons, Option.getD_some]
  rw [toSortedMap_gridPoints _ _ hlonne]

theorem map_fst_pairs (l : List ℚ) (f : ℚ → List ℚ) :
    (l.map (fun la => (la, f la))).map Prod.fst = l := by
  simp only [List.map_map]
  exact (List.map_congr_left fun a _ => rfl).trans (List.map_id _)

theorem mem_insertionSort_dedup (x : ℚ) (l : List ℚ) :
    x ∈ List.insertionSort (· ≤ ·) l.dedup ↔ x ∈ l := by
  rw [(List.perm_insertionSort _ _).mem_iff, List.mem_dedup]

/-- C1 (counterexample): for bounding box 0..1 × 0..1 at step 2/5 with no
mask, `build_coordinate_map` yields latitudes [0, 2/5, 4/5]: the endpoint
`lat_max = 1` does not appear among the latitudes, not even within a
generous 1/1000 tolerance (the nearest grid latitude is 1/5 away), refuting
"the grid includes both endpoints of each axis". -/
theorem inclusive_range_misses_endpoint :
    build_coordinate_map 0 1 0 1 (2/5) none
        = some [(0, [0, 2/5, 4/5]), (2/5, [0, 2/5, 4/5]), (4/5, [0, 2/5, 4/5])]
      ∧ (1 : ℚ) ∉ [(0 : ℚ), 2/5, 4/5]
      ∧ ¬ (|(0 : ℚ) - 1| ≤ 1/1000 ∨ |(2/5 : ℚ) - 1| ≤ 1/1000
            ∨ |(4/5 : ℚ) - 1| ≤ 1/1000) := by
  refine ⟨?_, by with_unfolding_all decide, by with_unfolding_all decide⟩
  with_unfolding_all decide

/-- C1 (amended): over a nonempty bounding box with no mask and a positive
step, the grid always contains the (rounded) minimum endpoint of each axis
(among the latitudes, respectively in every latitude's longitude list), and
it contains the (rounded) maximum endpoint of an axis whenever that axis's
span is an exact whole number of steps; in general the maximum endpoint is
reached only up to the step size (see the counterexample). -/
theorem coordinate_map_endpoint_membership
    (lat_min lat_max lon_min lon_max step : ℚ)
    (h1 : lat_min ≤ lat_max) (h2 : lon_min ≤ lon_max) (hs : 0 < step)
    (m : List (ℚ × List ℚ))
    (hm : build_coordinate_map lat_min lat_max lon_min lon_max step none
      = some m) :
    (round6 lat_min ∈ m.map Prod.fst ∧ ∀ p ∈ m, round6 lon_min ∈ p.2)
      ∧ (∀ a : ℕ, lat_max = lat_min + (a : ℚ) * step →
          round6 lat_max ∈ m.map Prod.fst)
      ∧ (∀ b : ℕ, lon_max = lon_min + (b : ℚ) * step →
          ∀ p ∈ m, round6 lon_max ∈ p.2) := by
  rw [build_none_eq_grid lat_min lat_max lon_min lon_max step h1 h2 hs] at hm
  obtain rfl := Option.some.inj hm.symm
  have hepspos : (0 : ℚ) < eps := by unfold eps; norm_num
  have hlats := inclusive_range_eq lat_min lat_max step hs
  have hlons := inclusive_range_eq lon_min lon_max step hs
  have hlatmin : round6 lat_min
      ∈ (inclusive_range lat_min lat_max step).getD [] := by
    have h0 := round6_mem_inclusive_range lat_min lat_max step hs 0
      (by push_cast; linarith) _ hlats
    rw [hlats]
    simpa using h0
  have hlonmin : round6 lon_min
      ∈ (inclusive_range lon_min lon_max step).getD [] := by
    have h0 := round6_mem_inclusive_range lon_min lon_max step hs 0
      (by push_cast; linarith) _ hlons
    rw [hlons]
    simpa using h0
  refine ⟨⟨?_, ?_⟩, ?_, ?_⟩
  · rw [specInclusiveGrid, map_fst_pairs]
    exact (mem_insertionSort_dedup _ _).mpr hlatmin
  · intro p hp
    simp only [specInclusiveGrid, List.mem_map] at hp
    obtain ⟨la, _, rfl⟩ := hp
    exact (mem_insertionSort_dedup _ _).mpr hlonmin
  · intro a ha
    have hlatmax : round6 lat_max
        ∈ (inclusive_range lat_min lat_max step).getD [] := by
      have h0 := round6_mem_inclusive_range lat_min lat_max step hs a
        (by rw [← ha]; linarith) _ hlats
      rw [hlats]
      rw [← ha] at h0
      simpa using h0
    rw [specInclusiveGrid, map_fst_pairs]
    exact (mem_insertionSort_dedup _ _).mpr hlatmax
  · intro b hb p hp
    have hlonmax : round6 lon_max
        ∈ (inclusive_range lon_min lon_max step).getD [] := by
      have h0 := round6_mem_inclusive_range lon_min lon_max step hs b
        (by rw [← hb]; linarith) _ hlons
      rw [hlons]
      rw [← hb] at h0
      simpa using h0
    simp only [specInclusiveGrid, List.mem_map] at hp
    obtain ⟨la, _, rfl⟩ := hp
    exact (mem_insertionSort_dedup _ _).mpr hlonmax

/-- C1 (witness): bounding box 0..1 × 0..1, step 1/2 (both spans are 2 whole
steps): the minimum endpoints appear unconditionally, and both maximum
endpoints appear via the whole-multiple clauses. -/
theorem coordinate_map_endpoint_membership_witness :
    (round6 0 ∈ ([((0 : ℚ), [(0 : ℚ), 1/2, 1]), (1/2, [0, 1/2, 1]),
          (1, [0, 1/2, 1])].map Prod.fst)
        ∧ round6 1 ∈ ([((0 : ℚ), [(0 : ℚ), 1/2, 1]), (1/2, [0, 1/2, 1]),
          (1, [0, 1/2, 1])].map Prod.fst))
      ∧ round6 0 ∈ [(0 : ℚ), 1/2, 1] ∧ round6 1 ∈ [(0 : ℚ), 1/2, 1] := by
  have T := coordinate_map_endpoint_membership 0 1 0 1 (1/2)
    (by norm_num) (by norm_num) (by norm_num)
    [((0 : ℚ), [(0 : ℚ), 1/2, 1]), (1/2, [0, 1/2, 1]), (1, [0, 1/2, 1])]
    (by with_unfolding_all decide)
  exact ⟨⟨T.1.1, T.2.1 2 (by norm_num)⟩,
    T.1.2 ((0 : ℚ), [(0 : ℚ), 1/2, 1]) (List.mem_cons_self _ _),
    T.2.2 2 (by norm_num) ((0 : ℚ), [(0 : ℚ), 1/2, 1])
      (List.mem_cons_self _ _)⟩

/-- C2 (counterexample): `build_coordinate_map` over 0..1 × 0..1 with
fallback step 1 and a region-free mask whose `default_step` is 2 uses the
mask's default step, not the fallback step: the result is the single-point
grid at step 2, not the 2×2 grid at the fallback step 1. -/
theorem empty_mask_ignores_fallback :
    build_coordinate_map 0 1 0 1 1
        (some { default_step := 2, regions := [] })
      ≠ some (specInclusiveGrid 0 1 0 1 1) := by
  with_unfolding_all decide

/-- C2 (amended): for a region-free mask over a nonempty bounding box, the
coordinate map is exactly the inclusive grid stepped at the mask's
`default_step` (not at the `fallback_step` argument, which is ignored as soon
as a mask is supplied), with no other points. -/
theorem coordinate_map_empty_mask
    (lat_min lat_max lon_min lon_max fb d : ℚ)
    (h1 : lat_min ≤ lat_max) (h2 : lon_min ≤ lon_max) (hd : 0 < d) :
    build_coordinate_map lat_min lat_max lon_min lon_max fb
        (some { default_step := d, regions := [] })
      = some (specInclusiveGrid lat_min lat_max lon_min lon_max d) :=
  build_empty_mask_eq_grid lat_min lat_max lon_min lon_max fb d h1 h2 hd

/-- C2 (witness): concrete instance with fallback 7 and default step 1. -/
theorem coordinate_map_empty_mask_witness :
    build_coordinate_map 0 1 0 1 7
        (some { default_step := 1, regions := [] })
      = some (specInclusiveGrid 0 1 0 1 1) :=
  coordinate_map_empty_mask 0 1 0 1 7 1 (by norm_num) (by norm_num)
    (by norm_num)

/-- C8: every coordinate map returned by `build_coordinate_map` has strictly
ascending latitudes, and strictly ascending (hence duplicate-free)
longitudes within each latitude. -/
theorem coordinate_map_sorted
    (lat_min lat_max lon_min lon_max fb : ℚ) (mask : Option MaskConfig)
    (m : List (ℚ × List ℚ))
    (hm : build_coordinate_map lat_min lat_max lon_min lon_max fb mask
      = some m) :
    List.Sorted (· < ·) (m.map Prod.fst)
      ∧ ∀ p ∈ m, List.Sorted (· < ·) p.2 := by
  rw [build_coordinate_map] at hm
  obtain ⟨pts, -, rfl⟩ := Option.map_eq_some'.mp hm
  constructor
  · rw [toSortedMap_map_fst]
    exact sorted_lt_insertionSort _ (List.nodup_dedup _)
  · intro p hp
    simp only [toSortedMap, List.mem_map] at hp
    obtain ⟨la, -, rfl⟩ := hp
    exact sorted_lt_insertionSort _ (List.nodup_dedup _)

/-- C8 (witness): concrete instance over 0..1 × 0..1 at step 1. -/
theorem coordinate_map_sorted_witness :
    List.Sorted (· < ·)
        ([((0 : ℚ), [(0 : ℚ), 1]), (1, [0, 1])].map Prod.fst)
      ∧ List.Sorted (· < ·) [(0 : ℚ), 1] :=
  ⟨(coordinate_map_sorted 0 1 0 1 1 none
      [((0 : ℚ), [(0 : ℚ), 1]), (1, [0, 1])]
      (by with_unfolding_all decide)).1,
    (coordinate_map_sorted 0 1 0 1 1 none
      [((0 : ℚ), [(0 : ℚ), 1]), (1, [0, 1])]
      (by with_unfolding_all decide)).2 ((0 : ℚ), [(0 : ℚ), 1])
      (List.mem_cons_self _ _)⟩

/-- The step lookup in the spec's words (§4.1): "the minimum step among all
regions whose rectangle contains the point, falling back to the default step
if none match".  This definition follows the specification text and is
compared against `apply_mask_step`. -/
def specMinContainingStep (m : MaskConfig) (lat lon : ℚ) : ℚ :=
  match (m.regions.filter (fun r => regionContains r lat lon)).map
      (fun r => r.step) with
  | [] => m.default_step
  | s :: rest => rest.foldl min s

/-- Folding `min` with a filter test is folding `min` over the filtered
steps. -/
theorem foldl_min_filter (lat lon : ℚ) (rs : List MaskRegion) (s : ℚ) :
    rs.foldl
        (fun step r => if regionContains r lat lon then min step r.step
          else step) s
      = ((rs.filter (fun r => regionContains r lat lon)).map
          (fun r => r.step)).foldl min s := by
  induction rs generalizing s with
  | nil => rfl
  | cons r rest ih =>
    by_cases h : regionContains r lat lon
    · simp only [List.foldl_cons, if_pos h, List.filter_cons, h, if_true,
        List.map_cons]
      exact ih (min s r.step)
    · simp only [List.foldl_cons, if_neg h, List.filter_cons, h]
      simpa using ih s

/-- C3 (counterexample): with default step 1 and one containing region of
step 5, `apply_mask_step` returns 1 (the default participates in the
minimum), while the claimed "minimum step among all regions whose rectangle
contains the coordinate" is 5. -/
theorem apply_mask_step_not_min_of_containing :
    apply_mask_step
        (some { default_step := 1,
                regions := [{ name := "wide", lat_min := -10, lat_max := 10,
                              lon_min := -10, lon_max := 10, step := 5 }] })
        0 0 7 = 1
      ∧ specMinContainingStep
          { default_step := 1,
            regions := [{ name := "wide", lat_min := -10, lat_max := 10,
                          lon_min := -10, lon_max := 10, step := 5 }] }
          0 0 = 5
      ∧ (1 : ℚ) ≠ 5 := by
  refine ⟨by with_unfolding_all decide, by with_unfolding_all decide,
    by with_unfolding_all decide⟩

/-- C3 (amended): `apply_mask_step` returns the minimum of the mask's
`default_step` and the steps of all containing regions (so the default step
caps the result from above; with no containing region it is the default
step); `regions_for_point` returns exactly the names of the containing
regions, in order; at a point covered by two overlapping regions with steps
2 and 1/2 under a coarser default 3, the step is 1/2 and both names are
listed. -/
theorem apply_mask_step_characterization (m : MaskConfig) (lat lon fb : ℚ) :
    (apply_mask_step (some m) lat lon fb
        = ((m.regions.filter (fun r => regionContains r lat lon)).map
            (fun r => r.step)).foldl min m.default_step
      ∧ regions_for_point (some m) lat lon
        = (m.regions.filter (fun r => regionContains r lat lon)).map
            (fun r => r.name))
      ∧ (apply_mask_step
          (some { default_step := 3,
                  regions := [
                    { name := "coarse", lat_min := -10, lat_max := 10,
                      lon_min := -10, lon_max := 10, step := 2 },
                    { name := "fine", lat_min := -1, lat_max := 1,
                      lon_min := -1, lon_max := 1, step := 1/2 }] })
          0 0 7 = 1/2
        ∧ regions_for_point
            (some { default_step := 3,
                    regions := [
                      { name := "coarse", lat_min := -10, lat_max := 10,
                        lon_min := -10, lon_max := 10, step := 2 },
                      { name := "fine", lat_min := -1, lat_max := 1,
                        lon_min := -1, lon_max := 1, step := 1/2 }] })
            0 0 = ["coarse", "fine"]) := by
  refine ⟨⟨foldl_min_filter lat lon m.regions m.default_step, rfl⟩,
    by with_unfolding_all decide, by with_unfolding_all decide⟩

/-- C4 (counterexample): `load_mask` accepts a descriptor whose
`default_step` is the non-positive number -1 and returns it unchanged, so it
does not fail with a validation error on non-positive steps. -/
theorem load_mask_accepts_negative_step :
    load_mask (Json.obj [("default_step", Json.num (-1))])
        = Except.ok { default_step := -1, regions := [] }
      ∧ ¬ (0 : ℚ) < -1 := by
  refine ⟨by with_unfolding_all rfl, by norm_num⟩

/-- C4 (amended): `load_mask` validates only presence and numeric-ness of
the fields, never the sign: a descriptor with any non-positive
`default_step` and a region with any non-positive `step` loads successfully
and is returned as-is.  Positivity is enforced only later, by
`_inclusive_range`, which raises `ValueError` on a non-positive step at grid
construction time. -/
theorem load_mask_no_positivity_check (q s : ℚ) (hq : q ≤ 0) (hs : s ≤ 0) :
    load_mask
        (Json.obj [("default_step", Json.num q),
          ("regions", Json.arr [Json.obj [
            ("name", Json.str "r"),
            ("lat_min", Json.num 0), ("lat_max", Json.num 1),
            ("lon_min", Json.num 0), ("lon_max", Json.num 1),
            ("step", Json.num s)]])])
        = Except.ok { default_step := q,
                      regions := [{ name := "r", lat_min := 0, lat_max := 1,
                                    lon_min := 0, lon_max := 1,
                                    step := s }] }
      ∧ inclusive_range 0 1 q = none := by
  constructor
  · rfl
  · exact inclusive_range_none 0 1 q (by linarith)

/-- C4 (witness): concrete instance at default_step -1 and region step -2. -/
theorem load_mask_no_positivity_check_witness :
    load_mask
        (Json.obj [("default_step", Json.num (-1)),
          ("regions", Json.arr [Json.obj [
            ("name", Json.str "r"),
            ("lat_min", Json.num 0), ("lat_max", Json.num 1),
            ("lon_min", Json.num 0), ("lon_max", Json.num 1),
            ("step", Json.num (-2))]])])
        = Except.ok { default_step := -1,
                      regions := [{ name := "r", lat_min := 0, lat_max := 1,
                                    lon_min := 0, lon_max := 1,
                                    step := -2 }] }
      ∧ inclusive_range 0 1 (-1) = none :=
  load_mask_no_positivity_check (-1) (-2) (by norm_num) (by norm_num)

/-- C10: `load_mask` succeeds on a descriptor with a numeric `default_step`
and no `regions` key at all, returning an empty region list. -/
theorem load_mask_missing_regions_key (fields : List (String × Json)) (q : ℚ)
    (h1 : jGet (Json.obj fields) "default_step" = some (Json.num q))
    (h2 : jGet (Json.obj fields) "regions" = none) :
    load_mask (Json.obj fields)
      = Except.ok { default_step := q, regions := [] } := by
  rw [load_mask, h1, h2]
  rfl

/-- C10 (witness): a one-key descriptor. -/
theorem load_mask_missing_regions_key_witness :
    load_mask (Json.obj [("default_step", Json.num 3)])
      = Except.ok { default_step := 3, regions := [] } :=
  load_mask_missing_regions_key [("default_step", Json.num 3)] 3
    (by rfl) (by rfl)

/-- C5: `run_driver` fails exactly when the driver exits non-zero or its
standard output does not parse; the error value carries the coordinate, exit
code and diagnostic output (respectively the parse detail and raw output)
interpolated into the Python message; a zero exit with parseable output
returns the parsed payload. -/
theorem run_driver_spec (exec : TsFields → ℚ → ℚ → ProcResult)
    (parse : String → Except String Json) (tf : TsFields) (lat lon : ℚ) :
    ((∃ e, run_driver exec parse tf lat lon = Except.error e)
        ↔ ((exec tf lat lon).returncode ≠ 0
            ∨ ∃ d, parse (exec tf lat lon).stdout = Except.error d))
      ∧ ((exec tf lat lon).returncode ≠ 0 →
          run_driver exec parse tf lat lon
            = Except.error (ComputeError.driverFailed lat lon
                (exec tf lat lon).returncode (exec tf lat lon).stderr))
      ∧ ((exec tf lat lon).returncode = 0 →
          ∀ v, parse (exec tf lat lon).stdout = Except.ok v →
            run_driver exec parse tf lat lon = Except.ok v)
      ∧ ((exec tf lat lon).returncode = 0 →
          ∀ d, parse (exec tf lat lon).stdout = Except.error d →
            run_driver exec parse tf lat lon
              = Except.error (ComputeError.parseFailed lat lon d
                  (exec tf lat lon).stdout)) := by
  refine ⟨⟨?_, ?_⟩, ?_, ?_, ?_⟩
  · rintro ⟨e, he⟩
    simp only [run_driver] at he
    by_cases h0 : (exec tf lat lon).returncode ≠ 0
    · exact Or.inl h0
    · rw [if_neg h0] at he
      cases hp : parse (exec tf lat lon).stdout with
      | ok v =>
        rw [hp] at he
        simp at he
      | error d => exact Or.inr ⟨d, rfl⟩
  · intro h
    rcases h with h0 | ⟨d, hd⟩
    · exact ⟨_, by simp only [run_driver]; rw [if_pos h0]⟩
    · by_cases h0 : (exec tf lat lon).returncode ≠ 0
      · exact ⟨_, by simp only [run_driver]; rw [if_pos h0]⟩
      · exact ⟨_, by simp only [run_driver]; rw [if_neg h0, hd]⟩
  · intro h0
    simp only [run_driver]
    rw [if_pos h0]
  · intro h0 v hv
    simp only [run_driver]
    rw [if_neg (by simp [h0]), hv]
  · intro h0 d hd
    simp only [run_driver]
    rw [if_neg (by simp [h0]), hd]

/-- A stub driver for the C5 witness: exits 0 with fixed output. -/
def execStub : TsFields → ℚ → ℚ → ProcResult := fun _ _ _ => ⟨0, "out", ""⟩

/-- A stub parser for the C5 witness: always parses to the number 5. -/
def parseStub : String → Except String Json := fun _ => Except.ok (Json.num 5)

/-- C5 (witness): the stub driver's output is returned parsed. -/
theorem run_driver_spec_witness :
    run_driver execStub parseStub ⟨2024, 1, 1, 0⟩ 1 2 = Except.ok (Json.num 5) :=
  (run_driver_spec execStub parseStub ⟨2024, 1, 1, 0⟩ 1 2).2.2.1 rfl
    (Json.num 5) rfl

/-- C6: when pool creation is denied (`PermissionError`), `build_tiles` with
more than one worker does not propagate the failure: it returns exactly the
result of `build_tiles` with one worker from the start — the same tile list,
nothing lost or duplicated, for every coordinate map and per-point compute
function. -/
theorem build_tiles_permission_fallback
    (point : ℚ → ℚ → Except ComputeError Json)
    (lat_to_lons : List (ℚ × List ℚ)) (workers : ℕ) (hw : 1 < workers)
    (s : PoolSpawn) :
    build_tiles point lat_to_lons workers PoolSpawn.permissionDenied
      = build_tiles point lat_to_lons 1 s := by
  have hne : workers ≠ 1 := by omega
  rw [build_tiles.eq_def, if_neg hne, build_tiles.eq_def, if_pos rfl]

/-- A stub per-point compute for the C6 witness. -/
def pointStub : ℚ → ℚ → Except ComputeError Json :=
  fun _ _ => Except.ok (Json.obj [])

/-- C6 (witness): two workers with denied spawning equal one worker. -/
theorem build_tiles_permission_fallback_witness :
    build_tiles pointStub [(0, [0, 1])] 2 PoolSpawn.permissionDenied
      = build_tiles pointStub [(0, [0, 1])] 1 PoolSpawn.ok :=
  build_tiles_permission_fallback pointStub [(0, [0, 1])] 2 (by norm_num)
    PoolSpawn.ok

/-- A closed clockwise axis-aligned rectangle ring (Natural Earth's outer-ring
orientation: negative shoelace area). -/
def rectRingCW (x1 y1 x2 y2 : ℚ) : List (ℚ × ℚ) :=
  [(x1, y1), (x1, y2), (x2, y2), (x2, y1), (x1, y1)]

/-- A closed counterclockwise axis-aligned rectangle ring (positive shoelace
area: a hole per the source's convention). -/
def rectRingCCW (x1 y1 x2 y2 : ℚ) : List (ℚ × ℚ) :=
  [(x1, y1), (x2, y1), (x2, y2), (x1, y2), (x1, y1)]

/-- A shape consisting of one solid rectangle ring, with the hole flag
derived by `load_shapes`' area rule. -/
def rectShape (x1 y1 x2 y2 : ℚ) : ShapeInfo :=
  { bbox := (x1, y1, x2, y2), rings := [mkRing (rectRingCW x1 y1 x2 y2)] }

/-- The rectangle shape with a nested rectangular hole ring. -/
def rectShapeWithHole (x1 y1 x2 y2 a1 b1 a2 b2 : ℚ) : ShapeInfo :=
  { bbox := (x1, y1, x2, y2)
    rings := [mkRing (rectRingCW x1 y1 x2 y2),
      mkRing (rectRingCCW a1 b1 a2 b2)] }

theorem polygon_area_rectCW (x1 y1 x2 y2 : ℚ) :
    polygon_area (rectRingCW x1 y1 x2 y2) = -((x2 - x1) * (y2 - y1)) := by
  simp only [polygon_area, rectRingCW, List.zip, List.zipWith, List.tail,
    List.foldl]
  ring

theorem polygon_area_rectCCW (x1 y1 x2 y2 : ℚ) :
    polygon_area (rectRingCCW x1 y1 x2 y2) = (x2 - x1) * (y2 - y1) := by
  simp only [polygon_area, rectRingCCW, List.zip, List.zipWith, List.tail,
    List.foldl]
  ring

/-- Unfolding of the ray-casting loop on a five-point (closed quadrilateral)
ring: edges are visited as (current, previous) pairs, starting with the wrap
pair. -/
theorem point_in_ring_five (lon lat : ℚ) (P0 P1 P2 P3 P4 : ℚ × ℚ) :
    point_in_ring lon lat [P0, P1, P2, P3, P4]
      = edgeTest lon lat P4 P3 (edgeTest lon lat P3 P2 (edgeTest lon lat P2 P1
          (edgeTest lon lat P1 P0 (edgeTest lon lat P0 P4 false)))) := rfl

theorem mkRing_points (pts : List (ℚ × ℚ)) : (mkRing pts).points = pts := rfl

/-- A horizontal edge never toggles the ray-casting state. -/
theorem edgeTest_same_y (lon lat xa xb y : ℚ) (inside : Bool) :
    edgeTest lon lat (xa, y) (xb, y) inside = inside := by
  simp [edgeTest]

/-- On a vertical edge the crossing abscissa is the edge's own `x`. -/
theorem edgeTest_vertical (lon lat x ya yb : ℚ) (inside : Bool) :
    edgeTest lon lat (x, ya) (x, yb) inside
      = if (decide (ya > lat) != decide (yb > lat)) && decide (lon < x) then
          !inside
        else inside := by
  simp only [edgeTest]
  have h : (x - x) * (lat - ya)
      / (if yb - ya = 0 then (1 : ℚ) / 1000000000000 else yb - ya) + x = x := by
    rw [sub_self, zero_mul, zero_div, zero_add]
  rw [h]

theorem point_in_ring_rectCW (x1 y1 x2 y2 p q : ℚ)
    (hx1 : x1 < p) (hx2 : p < x2) (hy1 : y1 < q) (hy2 : q < y2) :
    point_in_ring p q (rectRingCW x1 y1 x2 y2) = true := by
  have d1 : decide (y2 > q) = true := decide_eq_true hy2
  have d2 : decide (y1 > q) = false := decide_eq_false (lt_asymm hy1)
  have d3 : decide (p < x1) = false := decide_eq_false (lt_asymm hx1)
  have d4 : decide (p < x2) = true := decide_eq_true hx2
  simp only [rectRingCW, point_in_ring_five, edgeTest_same_y,
    edgeTest_vertical, d1, d2, d3, d4]
  rfl

theorem point_in_ring_rectCCW (a1 b1 a2 b2 p q : ℚ)
    (ha1 : a1 < p) (ha2 : p < a2) (hb1 : b1 < q) (hb2 : q < b2) :
    point_in_ring p q (rectRingCCW a1 b1 a2 b2) = true := by
  have d1 : decide (b2 > q) = true := decide_eq_true hb2
  have d2 : decide (b1 > q) = false := decide_eq_false (lt_asymm hb1)
  have d3 : decide (p < a1) = false := decide_eq_false (lt_asymm ha1)
  have d4 : decide (p < a2) = true := decide_eq_true ha2
  simp only [rectRingCCW, point_in_ring_five, edgeTest_same_y,
    edgeTest_vertical, d1, d2, d3, d4]
  rfl

theorem rectRingCW_not_hole (x1 y1 x2 y2 : ℚ) (hx : x1 < x2) (hy : y1 < y2) :
    (mkRing (rectRingCW x1 y1 x2 y2)).is_hole = false := by
  have hpos : 0 < (x2 - x1) * (y2 - y1) :=
    mul_pos (by linarith) (by linarith)
  simp only [mkRing, polygon_area_rectCW]
  exact decide_eq_false (by linarith)

theorem rectRingCCW_hole (a1 b1 a2 b2 : ℚ) (ha : a1 < a2) (hb : b1 < b2) :
    (mkRing (rectRingCCW a1 b1 a2 b2)).is_hole = true := by
  have hpos : 0 < (a2 - a1) * (b2 - b1) :=
    mul_pos (by linarith) (by linarith)
  simp only [mkRing, polygon_area_rectCCW]
  exact decide_eq_true (by linarith)

/-- C7: the centroid of a simple axis-aligned rectangle ring is inside the
shape, and with a hole ring nested in the rectangle, a point inside the hole
is outside the shape. -/
theorem point_in_shape_rect_and_hole
    (x1 y1 x2 y2 a1 b1 a2 b2 p q : ℚ)
    (hx : x1 < x2) (hy : y1 < y2)
    (hxa : x1 < a1) (haa : a1 < a2) (hax : a2 < x2)
    (hyb : y1 < b1) (hbb : b1 < b2) (hby : b2 < y2)
    (hp1 : a1 < p) (hp2 : p < a2) (hq1 : b1 < q) (hq2 : q < b2) :
    point_in_shape ((x1 + x2) / 2) ((y1 + y2) / 2) (rectShape x1 y1 x2 y2)
        = true
      ∧ point_in_shape p q (rectShapeWithHole x1 y1 x2 y2 a1 b1 a2 b2)
        = false := by
  constructor
  · have hguard : ¬ ((x1 + x2) / 2 < x1 ∨ (x1 + x2) / 2 > x2
        ∨ (y1 + y2) / 2 < y1 ∨ (y1 + y2) / 2 > y2) := by
      push_neg
      refine ⟨by linarith, by linarith, by linarith, by linarith⟩
    have hin := point_in_ring_rectCW x1 y1 x2 y2 ((x1 + x2) / 2)
      ((y1 + y2) / 2) (by linarith) (by linarith) (by linarith) (by linarith)
    have hh := rectRingCW_not_hole x1 y1 x2 y2 hx hy
    simp only [point_in_shape, rectShape, if_neg hguard, List.foldl,
      mkRing_points, hin, hh]
    rfl
  · have hxp : x1 < p := by linarith
    have hpx : p < x2 := by linarith
    have hyq : y1 < q := by linarith
    have hqy : q < y2 := by linarith
    have hguard : ¬ (p < x1 ∨ p > x2 ∨ q < y1 ∨ q > y2) := by
      push_neg
      refine ⟨hxp.le, hpx.le, hyq.le, hqy.le⟩
    have hin1 := point_in_ring_rectCW x1 y1 x2 y2 p q hxp hpx hyq hqy
    have hin2 := point_in_ring_rectCCW a1 b1 a2 b2 p q hp1 hp2 hq1 hq2
    have hh1 := rectRingCW_not_hole x1 y1 x2 y2 hx hy
    have hh2 := rectRingCCW_hole a1 b1 a2 b2 haa hbb
    simp only [point_in_shape, rectShapeWithHole, if_neg hguard, List.foldl,
      mkRing_points, hin1, hin2, hh1, hh2]
    rfl

/-- C7 (witness): rectangle 0..10 × 0..10 with hole 2..4 × 2..4; centroid
(5,5) is inside, the hole point (3,3) is outside. -/
theorem point_in_shape_rect_and_hole_witness :
    point_in_shape ((0 + 10) / 2) ((0 + 10) / 2) (rectShape 0 0 10 10) = true
      ∧ point_in_shape 3 3 (rectShapeWithHole 0 0 10 10 2 2 4 4) = false :=
  point_in_shape_rect_and_hole 0 0 10 10 2 2 4 4 3 3
    (by norm_num) (by norm_num) (by norm_num) (by norm_num) (by norm_num)
    (by norm_num) (by norm_num) (by norm_num) (by norm_num) (by norm_num)
    (by norm_num) (by norm_num)

/-- C9: every region emitted by `build_mask` is the degenerate rectangle of
some land cell: `lat_min = lat_max` and `lon_min = lon_max` at the cell's
whole-degree southwest corner, and a coordinate is contained in the region's
rectangle exactly when it equals that single point. -/
theorem build_mask_degenerate_regions (cells : List (ℤ × ℤ))
    (default_step land_step : ℚ) (r : MaskRegion)
    (hr : r ∈ (build_mask cells default_step land_step).regions) :
    (∃ c ∈ cells, r = landCellRegion land_step c)
      ∧ r.lat_min = r.lat_max ∧ r.lon_min = r.lon_max
      ∧ ∀ lat lon : ℚ,
          (regionContains r lat lon = true ↔ lat = r.lat_min ∧ lon = r.lon_min) := by
  rw [build_mask] at hr
  have hr2 : r ∈ cells.map (landCellRegion land_step) :=
    (List.perm_insertionSort _ _).mem_iff.mp hr
  obtain ⟨c, hc, rfl⟩ := List.mem_map.mp hr2
  refine ⟨⟨c, hc, rfl⟩, rfl, rfl, ?_⟩
  intro lat lon
  simp only [regionContains, landCellRegion, decide_eq_true_eq]
  constructor
  · rintro ⟨h1, h2, h3, h4⟩
    exact ⟨le_antisymm h2 h1, le_antisymm h4 h3⟩
  · rintro ⟨rfl, rfl⟩
    exact ⟨le_refl _, le_refl _, le_refl _, le_refl _⟩

/-- C9 (witness): the mask of the single land cell (1, 2) matches exactly at
the point (1, 2). -/
theorem build_mask_degenerate_regions_witness :
    (landCellRegion 1 ((1 : ℤ), (2 : ℤ))).lat_min
        = (landCellRegion 1 ((1 : ℤ), (2 : ℤ))).lat_max
      ∧ (regionContains (landCellRegion 1 ((1 : ℤ), (2 : ℤ))) 1 2 = true
          ↔ (1 : ℚ) = (landCellRegion 1 ((1 : ℤ), (2 : ℤ))).lat_min
            ∧ (2 : ℚ) = (landCellRegion 1 ((1 : ℤ), (2 : ℤ))).lon_min) :=
  ⟨(build_mask_degenerate_regions [(1, 2)] 5 1 _
      (by with_unfolding_all decide)).2.1,
    (build_mask_degenerate_regions [(1, 2)] 5 1 _
      (by with_unfolding_all decide)).2.2.2 1 2⟩

end BHN
